import Mathlib

/-!
Shallow embedding of the `dioxus-collect-assets` repository
(`src/macro/src/font.rs`, `src/macro/src/lib.rs`, `src/src/lib.rs`)
and proofs about it.  Definitions come first, theorems afterwards.
-/

set_option autoImplicit false

namespace CollectAssets

/-! ## Font option model (`src/macro/src/font.rs`)

`FontFamilies` holds `families: Vec<String>`, `FontWeights` holds
`weights: Vec<u32>` (represented here as `Nat`; `FontWeights::parse`
only produces values that fit in `u32`).  `ParseFontOptions` bundles
them with the optional `text` and `display` strings, `None` options
defaulting to the empty lists via `unwrap_or_default`. -/

structure ParseFontOptions where
  families : List String
  weights : List Nat
  text : Option String
  display : Option String
  deriving DecidableEq

/-- Rust `s.replace(' ', "+")`: every space character becomes a plus sign. -/
def replaceSpaces (s : String) : String :=
  ⟨s.data.map (fun c => if c = ' ' then '+' else c)⟩

/-- Embedding of `ParseFontOptions::url` (src/macro/src/font.rs lines 56-89):
build the segment list in order (family, weight, text, display), join the
present segments with `&` behind a `?`, omit the query entirely when no
segment is present, and prepend the fixed endpoint. -/
def ParseFontOptions.url (o : ParseFontOptions) : String :=
  let families := o.families.map replaceSpaces
  let segments : List String :=
    if families.isEmpty then [] else ["family=" ++ String.intercalate "&" families]
  let weights := o.weights.map (fun w => toString w)
  let segments :=
    segments ++ (if weights.isEmpty then [] else ["weight=" ++ String.intercalate "," weights])
  let segments :=
    segments ++ (match o.text with
      | some text => ["text=" ++ replaceSpaces text]
      | none => [])
  let segments :=
    segments ++ (match o.display with
      | some display => ["display=" ++ replaceSpaces display]
      | none => [])
  let query := if segments.isEmpty then "" else "?" ++ String.intercalate "&" segments
  "https://fonts.googleapis.com/css2" ++ query

/-! A second rendering of the URL, written after the spec's words (§4.3):
the present segments appear in the fixed order family, weight, text,
display; multiple families are joined by `&` after a single `family=`
prefix; weights are joined by `,`; spaces are replaced by `+`.  It is
compared with `ParseFontOptions.url` in the theorem for C1. -/

/-- Spec §4.3: the ordered list of present query segments. -/
def specSegments (o : ParseFontOptions) : List String :=
  (if o.families.isEmpty then []
   else ["family=" ++ String.intercalate "&" (o.families.map replaceSpaces)]) ++
  (if o.weights.isEmpty then []
   else ["weight=" ++ String.intercalate "," (o.weights.map (fun w => toString w))]) ++
  (match o.text with
   | some text => ["text=" ++ replaceSpaces text]
   | none => []) ++
  (match o.display with
   | some display => ["display=" ++ replaceSpaces display]
   | none => [])

/-- Spec §4.3: concatenate present segments with `&`; if none present, omit
the query string entirely; prefix with the fixed base endpoint path. -/
def specUrl (o : ParseFontOptions) : String :=
  "https://fonts.googleapis.com/css2" ++
    (if (specSegments o).isEmpty then ""
     else "?" ++ String.intercalate "&" (specSegments o))

/-! ## Font option parsing (`src/macro/src/font.rs`, `Parse` impls)

The macro input for `font!` is a braced, comma-separated sequence of
`ident: value` entries.  We model it as a list of key/value pairs where
the value is the already-lexed token payload: a bracketed list of string
literals, a bracketed list of integer literals (kept as their raw base-10
literal text, which may carry a sign — `syn` accepts negative literals as
`LitInt`), or a single string literal. -/

inductive FontOptValue where
  | strList (ss : List String)
  | intList (ds : List String)
  | strLit (s : String)
  deriving DecidableEq

/-- Outcome of a parse: a value, a `syn::Error` (surfaced to the user as a
compile error naming the problem), or a Rust panic (e.g. `.unwrap()` on an
`Err`). -/
inductive ParseOutcome (α : Type) where
  | ok (a : α)
  | err (msg : String)
  | panicked (msg : String)
  deriving DecidableEq

/-- Rust `str::to_lowercase` restricted to the ASCII identifiers that occur
as option keys (`to_lowercase` agrees with per-character ASCII lowering
there). -/
def lowerString (s : String) : String :=
  ⟨s.data.map Char.toLower⟩

/-- Embedding of `FontFamilies::parse`: the value must be a bracketed,
non-empty list of string literals (`parse_separated_nonempty::<LitStr>`);
anything else is a `syn::Error`. -/
def parseFontFamilies : FontOptValue → ParseOutcome (List String)
  | .strList [] => .err "unexpected end of input, expected string literal"
  | .strList ss => .ok ss
  | _ => .err "expected square brackets"

/-- Embedding of `u32::from_str` as invoked by `LitInt::base10_parse::<u32>`:
the digit string must be non-empty, all decimal digits (so a leading sign
fails), and the value must fit in `u32`. -/
def base10ParseU32 (s : String) : Except String Nat :=
  if s.length ≠ 0 ∧ s.data.all Char.isDigit then
    let n := s.data.foldl (fun acc c => acc * 10 + (c.toNat - 48)) 0
    if n < 4294967296 then Except.ok n
    else Except.error "number too large to fit in target type"
  else Except.error "invalid digit found in string"

/-- Embedding of `.map(|f| f.base10_parse().unwrap())` over the weight
literals: the first literal whose `base10_parse::<u32>` fails makes the
whole macro invocation panic (that is what `.unwrap()` does on `Err`). -/
def unwrapWeights : List String → ParseOutcome (List Nat)
  | [] => .ok []
  | d :: ds =>
    match base10ParseU32 d with
    | .error e => .panicked ("called Result::unwrap() on an Err value: " ++ e)
    | .ok n =>
      match unwrapWeights ds with
      | .ok ns => .ok (n :: ns)
      | .err e => .err e
      | .panicked e => .panicked e

/-- Embedding of `FontWeights::parse`: the value must be a bracketed,
non-empty list of integer literals (`parse_separated_nonempty::<LitInt>`),
whose entries are then unwrapped by `unwrapWeights`. -/
def parseFontWeights : FontOptValue → ParseOutcome (List Nat)
  | .intList [] => .err "unexpected end of input, expected integer literal"
  | .intList ds => unwrapWeights ds
  | _ => .err "expected square brackets"

/-- Error message emitted by `ParseFontOptions::parse` for an unknown option
key (src/macro/src/font.rs lines 119-124); it interpolates the original
identifier spelling. -/
def unknownFontOptionMsg (ident : String) : String :=
  "Unknown font option: " ++ ident ++
    ". Supported options are families, weights, text, display"

/-- Embedding of the loop of `ParseFontOptions::parse` (src/macro/src/font.rs
lines 100-134): each entry's identifier is lowercased and matched against the
four recognized option names (a later entry overwrites an earlier one); an
unrecognized identifier aborts with `unknownFontOptionMsg`.  The accumulators
mirror the four `Option` locals, and the final result applies
`unwrap_or_default` to `families` and `weights`. -/
def parseFontLoop (fam : Option (List String)) (wts : Option (List Nat))
    (txt dsp : Option String) :
    List (String × FontOptValue) → ParseOutcome ParseFontOptions
  | [] => .ok ⟨fam.getD [], wts.getD [], txt, dsp⟩
  | (ident, v) :: rest =>
    let key := lowerString ident
    if key = "families" then
      match parseFontFamilies v with
      | .ok ss => parseFontLoop (some ss) wts txt dsp rest
      | .err e => .err e
      | .panicked e => .panicked e
    else if key = "weights" then
      match parseFontWeights v with
      | .ok ns => parseFontLoop fam (some ns) txt dsp rest
      | .err e => .err e
      | .panicked e => .panicked e
    else if key = "text" then
      match v with
      | .strLit s => parseFontLoop fam wts (some s) dsp rest
      | _ => .err "expected string literal"
    else if key = "display" then
      match v with
      | .strLit s => parseFontLoop fam wts txt (some s) rest
      | _ => .err "expected string literal"
    else
      .err (unknownFontOptionMsg ident)

/-- `ParseFontOptions::parse` on a whole option list: the loop started with
all four locals `None`. -/
def parseFontOptions (l : List (String × FontOptValue)) :
    ParseOutcome ParseFontOptions :=
  parseFontLoop none none none none l

/-- The four recognized (lowercased) option keys. -/
def recognizedFontKeys : List String := ["families", "weights", "text", "display"]

/-! ## Asset descriptors and the link-section embedder (`src/macro/src/lib.rs`)

The descriptor types live in the `manganis_common` crate, which is not under
`src/`; they are modelled from the spec's data model (§3). -/

/-- Modelled from the spec: a `SourceHandle` is either a local filesystem
path or a remote URL (spec §3; the concrete type is
`manganis_common::FileSource`, not under `src/`). -/
inductive SourceHandle where
  | Local (path : String)
  | Remote (url : String)
  deriving DecidableEq

/-- Modelled from the spec: a file asset pairs a source handle with its
options; the options do not matter to the claims below and are kept as an
opaque string tag (`manganis_common::FileAsset` is not under `src/`). -/
structure FileAsset where
  source : SourceHandle
  options : String
  deriving DecidableEq

/-- Modelled from the spec: the tagged union of asset descriptors consumed by
`generate_link_section` (`manganis_common::AssetType`, not under `src/`);
the macro crate constructs its `File`, `Tailwind` and `Metadata` variants. -/
inductive AssetType where
  | File (f : FileAsset)
  | Tailwind (classes : String)
  | Metadata (key value : String)
  deriving DecidableEq

/-- Modelled from the spec: `serde_json::to_string` on an asset descriptor
(`serde_json` is an external crate).  The spec fixes the wire format as
self-describing JSON records, so the model renders one JSON object per
variant; the claims below consume only the UTF-8 byte length of the result,
not its exact text. -/
def serializeAsset : AssetType → String
  | .File f =>
    match f.source with
    | .Local p =>
      "\x7b\"File\":\x7b\"source\":\x7b\"Local\":\"" ++ p ++ "\"\x7d,\"options\":\""
        ++ f.options ++ "\"\x7d\x7d"
    | .Remote u =>
      "\x7b\"File\":\x7b\"source\":\x7b\"Remote\":\"" ++ u ++ "\"\x7d,\"options\":\""
        ++ f.options ++ "\"\x7d\x7d"
  | .Tailwind classes =>
    "\x7b\"Tailwind\":\x7b\"classes\":\"" ++ classes ++ "\"\x7d\x7d"
  | .Metadata key value =>
    "\x7b\"Metadata\":\x7b\"key\":\"" ++ key ++ "\",\"value\":\"" ++ value
      ++ "\"\x7d\x7d"

/-- Modelled from the spec: `LinkSection::CURRENT.link_section` from
`manganis_common::linker` (not under `src/`) — the fixed region name, a
single constant shared by every compiled unit and by the aggregator; the
macro's documentation calls the region "manganis". -/
def linkSectionCurrent : String := "manganis"

/-- The tokens emitted by `generate_link_section`: the `#[link_section = ..]`
name, the identifier of the `static`, its declared array length, and the
serialized bytes it is initialized with. -/
structure LinkSectionTokens where
  sectionName : String
  staticIdent : String
  declaredLen : Nat
  bytes : ByteArray

/-- Embedding of `generate_link_section` (src/macro/src/lib.rs lines 43-62):
serialize the asset, take `as_bytes().len()` of the serialization, and emit
`#[link_section = CURRENT] #[used] static ASSET: [u8; len] = *bytes;`.
The serializer is a parameter because it lives outside `src/`. -/
def generateLinkSection (serialize : AssetType → String) (asset : AssetType) :
    LinkSectionTokens :=
  let asset_description := serialize asset
  let len := asset_description.toUTF8.size
  LinkSectionTokens.mk linkSectionCurrent "ASSET" len asset_description.toUTF8

/-- The value a macro expansion splices back into the surrounding program:
either the unit value or a string. -/
inductive SplicedValue where
  | unit
  | str (s : String)
  deriving DecidableEq

/-- A proc-macro expansion as seen by the surrounding program: the emitted
link-section tokens plus the expression value of the generated block. -/
structure MacroExpansion where
  link : LinkSectionTokens
  value : SplicedValue

/-- Embedding of the `classes!` proc macro (src/macro/src/lib.rs lines
72-90): it emits the link section for a Tailwind asset inside a block whose
trailing expression is the input string, so the input string is spliced back
unmodified. -/
def classesExpansion (input : String) : MacroExpansion :=
  MacroExpansion.mk
    (generateLinkSection serializeAsset (AssetType.Tailwind input))
    (SplicedValue.str input)

/-- Embedding of the `meta!` proc macro (src/macro/src/lib.rs lines 228-247):
it emits the link section for a metadata asset inside a block with no
trailing expression, so the spliced value is the unit value. -/
def metaExpansion (key value : String) : MacroExpansion :=
  MacroExpansion.mk
    (generateLinkSection serializeAsset (AssetType.Metadata key value))
    SplicedValue.unit

/-! ## Diagnostic-log initialization (`src/macro/src/lib.rs` lines 21-36) -/

/-- The process state observed by `trace_to_file`: the `LOG_FILE_FRESH`
atomic flag, plus counters for how often the subscriber was installed and
how often the log file was truncated. -/
structure TraceState where
  logFileFresh : Bool
  initCount : Nat
  truncateCount : Nat
  deriving DecidableEq

/-- The state at process start: flag `false`, nothing initialized. -/
def TraceState.start : TraceState := TraceState.mk false 0 0

/-- Embedding of `trace_to_file` as a step on the process state:
`LOG_FILE_FRESH.fetch_or(true, ..)` atomically returns the old flag while
setting it, and only a caller that observed `false` truncates the log file
and installs the subscriber.  Because `fetch_or` is atomic, any concurrent
execution is an interleaving of these atomic steps, i.e. an iteration of
this function. -/
def trace_to_file (s : TraceState) : TraceState :=
  if s.logFileFresh then { s with logFileFresh := true }
  else TraceState.mk true (s.initCount + 1) (s.truncateCount + 1)

/-! ## `ImageAsset` (`src/src/lib.rs` lines 7-51) -/

/-- Embedding of the runtime `ImageAsset` struct: a path, an optional
low-quality preview and an optional caption (`&'static str` becomes
`String`).  The Rust accessors `path()`, `preview()`, `caption()` return the
fields unchanged and are modelled by the projections. -/
structure ImageAsset where
  path : String
  preview : Option String
  caption : Option String
  deriving DecidableEq

/-- `ImageAsset::new`: both options start out `None`. -/
def ImageAsset.new (path : String) : ImageAsset := ImageAsset.mk path none none

/-- `ImageAsset::with_preview`: functional update of the `preview` field
(`Self { preview, ..self }`). -/
def ImageAsset.with_preview (a : ImageAsset) (preview : Option String) : ImageAsset :=
  { a with preview := preview }

/-- `ImageAsset::with_caption`: functional update of the `caption` field
(`Self { caption, ..self }`). -/
def ImageAsset.with_caption (a : ImageAsset) (caption : Option String) : ImageAsset :=
  { a with caption := caption }

/-! ## Theorems -/

theorem url_eq_specUrl (o : ParseFontOptions) : o.url = specUrl o := by
  rcases o with ⟨fams, wts, txt, dsp⟩
  cases fams <;> cases wts <;> cases txt <;> cases dsp <;>
    simp [ParseFontOptions.url, specUrl, specSegments, List.isEmpty]

/-- C1: the worked example yields exactly the documented URL, and for every
option set `ParseFontOptions::url` agrees with the spec rendering `specUrl`:
present segments in the fixed order family, weight, text, display; multiple
families joined by `&` after a single `family=` prefix; weights joined by
`,`; spaces replaced by `+`. -/
theorem c1_font_url_example_and_order :
    (ParseFontOptions.mk ["Roboto", "Open Sans"] [400, 700] (some "Hi there")
        (some "swap")).url
      = "https://fonts.googleapis.com/css2?family=Roboto&Open+Sans&weight=400,700&text=Hi+there&display=swap"
    ∧ ∀ o : ParseFontOptions, o.url = specUrl o :=
  ⟨rfl, url_eq_specUrl⟩

/-- C2: when no segment is present (empty family list, empty weight list, no
text, no display) the URL is exactly the bare endpoint, with no query string
and no trailing question mark. -/
theorem c2_font_url_empty_options (o : ParseFontOptions) (hf : o.families = [])
    (hw : o.weights = []) (ht : o.text = none) (hd : o.display = none) :
    o.url = "https://fonts.googleapis.com/css2" := by
  rcases o with ⟨fams, wts, txt, dsp⟩
  simp only at hf hw ht hd
  subst hf; subst hw; subst ht; subst hd
  rfl

/-- Witness for C2 at the concrete empty option set. -/
theorem c2_font_url_empty_options_witness :
    (ParseFontOptions.mk [] [] none none).url = "https://fonts.googleapis.com/css2" :=
  c2_font_url_empty_options (ParseFontOptions.mk [] [] none none) rfl rfl rfl rfl

theorem lower_families : lowerString "families" = "families" := rfl

theorem lower_weights : lowerString "weights" = "weights" := rfl

theorem lower_text : lowerString "text" = "text" := rfl

theorem lower_display : lowerString "display" = "display" := rfl

/-- Reaching an entry whose lowercased key is not recognized makes the parse
loop abort, from any accumulator state, with the error naming the original
identifier. -/
theorem parseFontLoop_unknown (ident : String) (v : FontOptValue)
    (rest : List (String × FontOptValue)) (fam : Option (List String))
    (wts : Option (List Nat)) (txt dsp : Option String)
    (h : lowerString ident ∉ recognizedFontKeys) :
    parseFontLoop fam wts txt dsp ((ident, v) :: rest)
      = ParseOutcome.err (unknownFontOptionMsg ident) := by
  simp only [recognizedFontKeys, List.mem_cons, List.not_mem_nil, or_false, not_or] at h
  obtain ⟨h1, h2, h3, h4⟩ := h
  simp [parseFontLoop, h1, h2, h3, h4]

/-- A declaration list containing an entry with an unrecognized key never
produces a successfully constructed option set. -/
theorem parseFontLoop_unknown_never_ok :
    ∀ (l : List (String × FontOptValue)) (fam : Option (List String))
      (wts : Option (List Nat)) (txt dsp : Option String),
      (∃ kv ∈ l, lowerString kv.1 ∉ recognizedFontKeys) →
      ∀ o, parseFontLoop fam wts txt dsp l ≠ ParseOutcome.ok o := by
  intro l
  induction l with
  | nil => intro _ _ _ _ h; simp at h
  | cons head rest ih =>
    intro fam wts txt dsp h o heq
    obtain ⟨ident, v⟩ := head
    obtain ⟨kv, hkv, hbad⟩ := h
    by_cases hin : lowerString ident ∈ recognizedFontKeys
    · have hrest : ∃ kv ∈ rest, lowerString kv.1 ∉ recognizedFontKeys := by
        rcases List.mem_cons.mp hkv with hh | hh
        · subst hh; exact absurd hin hbad
        · exact ⟨kv, hh, hbad⟩
      simp only [recognizedFontKeys, List.mem_cons, List.not_mem_nil, or_false] at hin
      rcases hin with h1 | h1 | h1 | h1
      · simp only [parseFontLoop, h1, if_pos] at heq
        rcases hv : parseFontFamilies v with ss | e | e <;> simp [hv] at heq
        exact ih (some ss) wts txt dsp hrest o heq
      · simp only [parseFontLoop, h1] at heq
        norm_num at heq
        rcases hv : parseFontWeights v with ns | e | e <;> simp [hv] at heq
        exact ih fam (some ns) txt dsp hrest o heq
      · simp only [parseFontLoop, h1] at heq
        norm_num at heq
        rcases v with ss | ds | s <;> simp at heq
        exact ih fam wts (some s) dsp hrest o heq
      · simp only [parseFontLoop, h1] at heq
        norm_num at heq
        rcases v with ss | ds | s <;> simp at heq
        exact ih fam wts txt (some s) hrest o heq
    · rw [parseFontLoop_unknown ident v rest fam wts txt dsp hin] at heq
      exact ParseOutcome.noConfusion heq

/-- C6: a font declaration that supplies an option name outside the
recognized set fails with a configuration error naming that key: (1) when
the parse loop reaches the unrecognized entry — whatever recognized options
preceded it — it returns the `syn::Error` whose message interpolates the
offending identifier; (2) a declaration list containing an unrecognized key
never constructs an option set successfully. -/
theorem c6_unknown_option_rejected :
    (∀ (ident : String) (v : FontOptValue) (rest : List (String × FontOptValue))
        (fam : Option (List String)) (wts : Option (List Nat)) (txt dsp : Option String),
        lowerString ident ∉ recognizedFontKeys →
        parseFontLoop fam wts txt dsp ((ident, v) :: rest)
          = ParseOutcome.err (unknownFontOptionMsg ident))
  ∧ (∀ l : List (String × FontOptValue),
        (∃ kv ∈ l, lowerString kv.1 ∉ recognizedFontKeys) →
        ∀ o, parseFontOptions l ≠ ParseOutcome.ok o) :=
  ⟨parseFontLoop_unknown,
   fun l h o => parseFontLoop_unknown_never_ok l none none none none h o⟩

/-- Witness for C6 at the concrete key `bogus` (and, for the second part, an
unknown key sitting after a well-formed `weights` option). -/
theorem c6_unknown_option_rejected_witness :
    parseFontOptions [("bogus", FontOptValue.strLit "x")]
        = ParseOutcome.err (unknownFontOptionMsg "bogus")
      ∧ parseFontOptions
          [("weights", FontOptValue.intList ["400"]), ("Bogus", FontOptValue.strLit "x")]
        ≠ ParseOutcome.ok ⟨[], [400], none, none⟩ :=
  ⟨c6_unknown_option_rejected.1 "bogus" (FontOptValue.strLit "x") [] none none none none
      (by decide),
   c6_unknown_option_rejected.2
      [("weights", FontOptValue.intList ["400"]), ("Bogus", FontOptValue.strLit "x")]
      ⟨("Bogus", FontOptValue.strLit "x"), by decide, by decide⟩
      ⟨[], [400], none, none⟩⟩

/-- C7 (code bug): the weight entry `-100` is accepted by `syn` as an integer
literal, `base10_parse::<u32>` fails on it, and the `.unwrap()` in
`FontWeights::parse` turns that failure into a panic — not into the
configuration error the spec requires for malformed options. -/
theorem c7_negative_weight_panics :
    parseFontOptions [("weights", FontOptValue.intList ["-100"])]
      = ParseOutcome.panicked
          "called Result::unwrap() on an Err value: invalid digit found in string" := by
  rfl

/-- C10: option keys are matched after lowercasing, so any capitalization of
`families`, `weights`, `text` or `display` is handled exactly like the
canonical lowercase spelling (and in particular is not rejected as
unknown). -/
theorem c10_case_insensitive_keys (k : String) (v : FontOptValue)
    (rest : List (String × FontOptValue)) (fam : Option (List String))
    (wts : Option (List Nat)) (txt dsp : Option String) :
    (lowerString k = "families" →
        parseFontLoop fam wts txt dsp ((k, v) :: rest)
          = parseFontLoop fam wts txt dsp (("families", v) :: rest))
  ∧ (lowerString k = "weights" →
        parseFontLoop fam wts txt dsp ((k, v) :: rest)
          = parseFontLoop fam wts txt dsp (("weights", v) :: rest))
  ∧ (lowerString k = "text" →
        parseFontLoop fam wts txt dsp ((k, v) :: rest)
          = parseFontLoop fam wts txt dsp (("text", v) :: rest))
  ∧ (lowerString k = "display" →
        parseFontLoop fam wts txt dsp ((k, v) :: rest)
          = parseFontLoop fam wts txt dsp (("display", v) :: rest)) := by
  refine ⟨fun h => ?_, fun h => ?_, fun h => ?_, fun h => ?_⟩ <;>
    simp [parseFontLoop, h, lower_families, lower_weights, lower_text, lower_display]

/-- Witness for C10 at concrete mixed-case spellings of all four keys. -/
theorem c10_case_insensitive_keys_witness :
    parseFontOptions [("FaMiLiEs", FontOptValue.strList ["Roboto"])]
        = parseFontOptions [("families", FontOptValue.strList ["Roboto"])]
      ∧ parseFontOptions [("WEIGHTS", FontOptValue.intList ["400"])]
        = parseFontOptions [("weights", FontOptValue.intList ["400"])]
      ∧ parseFontOptions [("Text", FontOptValue.strLit "Hi")]
        = parseFontOptions [("text", FontOptValue.strLit "Hi")]
      ∧ parseFontOptions [("DiSpLaY", FontOptValue.strLit "swap")]
        = parseFontOptions [("display", FontOptValue.strLit "swap")] :=
  ⟨(c10_case_insensitive_keys "FaMiLiEs" (FontOptValue.strList ["Roboto"]) []
      none none none none).1 (by decide),
   (c10_case_insensitive_keys "WEIGHTS" (FontOptValue.intList ["400"]) []
      none none none none).2.1 (by decide),
   (c10_case_insensitive_keys "Text" (FontOptValue.strLit "Hi") []
      none none none none).2.2.1 (by decide),
   (c10_case_insensitive_keys "DiSpLaY" (FontOptValue.strLit "swap") []
      none none none none).2.2.2 (by decide)⟩

/-- C3: for every serializer and every asset descriptor, the emitted static
marker's declared length equals exactly the byte length of the serialized
representation (which is also the length of the bytes it is initialized
with), and the named region is the single fixed constant shared by every
compiled unit. -/
theorem c3_link_section_sized_and_named (serialize : AssetType → String)
    (asset : AssetType) :
    (generateLinkSection serialize asset).declaredLen
        = (serialize asset).toUTF8.size
      ∧ (generateLinkSection serialize asset).declaredLen
        = (generateLinkSection serialize asset).bytes.size
      ∧ (generateLinkSection serialize asset).sectionName = linkSectionCurrent :=
  ⟨rfl, rfl, rfl⟩

/-- C4 counterexample: two different embeds (a Tailwind asset and a metadata
asset) are given the same static identifier `ASSET` — the embedder does not
generate a fresh, unique symbol per call site. -/
theorem c4_counterexample :
    (generateLinkSection serializeAsset (AssetType.Tailwind "flex")).staticIdent
        = (generateLinkSection serializeAsset
            (AssetType.Metadata "opt-level" "3")).staticIdent
      ∧ AssetType.Tailwind "flex" ≠ AssetType.Metadata "opt-level" "3" :=
  ⟨rfl, by decide⟩

/-- C4 amended: every embed uses the one fixed static identifier `ASSET`;
each expansion wraps its `static` in its own block, so the repeated name is
scoped rather than colliding, but no per-call-site unique symbol is
generated. -/
theorem c4_fixed_static_ident (serialize : AssetType → String) (asset : AssetType) :
    (generateLinkSection serialize asset).staticIdent = "ASSET" := rfl

/-- C5 counterexample: the `classes!` expansion splices back the input string
(the macro's own documentation says the classes are returned unmodified),
not a unit value. -/
theorem c5_counterexample :
    (classesExpansion "flex flex-col p-5").value
        = SplicedValue.str "flex flex-col p-5"
      ∧ (classesExpansion "flex flex-col p-5").value ≠ SplicedValue.unit :=
  ⟨rfl, by decide⟩

/-- C5 amended: a metadata declaration splices a unit value, while a
style-classes declaration splices back exactly its input string. -/
theorem c5_spliced_values (key value input : String) :
    (metaExpansion key value).value = SplicedValue.unit
      ∧ (classesExpansion input).value = SplicedValue.str input :=
  ⟨rfl, rfl⟩

/-- After one or more calls, the state is the fixed point: flag set, exactly
one initialization, exactly one truncation. -/
theorem iterate_trace_to_file (n : Nat) :
    trace_to_file^[n + 1] TraceState.start = TraceState.mk true 1 1 := by
  induction n with
  | zero => rfl
  | succ n ih => rw [Function.iterate_succ_apply', ih]; rfl

/-- C8: diagnostic-log initialization happens at most once per process: after
`n` calls to `trace_to_file` the subscriber has been installed and the log
file truncated exactly `min n 1` times (so the first call performs the
initialization and the file is truncated at most once), and any call that
observes the flag already set leaves the state completely unchanged — a safe
no-op, which by atomicity of `fetch_or` also covers concurrent attempts. -/
theorem c8_log_init_at_most_once :
    (∀ n : Nat, (trace_to_file^[n] TraceState.start).initCount = min n 1
        ∧ (trace_to_file^[n] TraceState.start).truncateCount = min n 1)
  ∧ (∀ s : TraceState, s.logFileFresh = true → trace_to_file s = s) := by
  constructor
  · intro n
    cases n with
    | zero => exact ⟨rfl, rfl⟩
    | succ n =>
      rw [iterate_trace_to_file n]
      have h1 : min (n + 1) 1 = 1 := min_eq_right (Nat.succ_le_succ (Nat.zero_le n))
      exact ⟨h1.symm, h1.symm⟩
  · intro s hs
    rcases s with ⟨fresh, ic, tc⟩
    simp only at hs
    subst hs
    rfl

/-- Witness for C8: two calls still give a single initialization, and a call
on an already-initialized state is the identity. -/
theorem c8_log_init_at_most_once_witness :
    (trace_to_file^[2] TraceState.start).initCount = min 2 1
      ∧ trace_to_file (TraceState.mk true 1 1) = TraceState.mk true 1 1 :=
  ⟨(c8_log_init_at_most_once.1 2).1,
   c8_log_init_at_most_once.2 (TraceState.mk true 1 1) rfl⟩

/-- C9: `with_preview` changes only the `preview` field and `with_caption`
changes only the `caption` field; `path()`, `preview()` and `caption()` read
back exactly the values set. -/
theorem c9_image_asset_frame (a : ImageAsset) (p c : Option String) :
    ((a.with_preview p).path = a.path
      ∧ (a.with_preview p).caption = a.caption
      ∧ (a.with_preview p).preview = p)
  ∧ ((a.with_caption c).path = a.path
      ∧ (a.with_caption c).preview = a.preview
      ∧ (a.with_caption c).caption = c) :=
  ⟨⟨rfl, rfl, rfl⟩, ⟨rfl, rfl, rfl⟩⟩

end CollectAssets
